import Mathlib

/-!
Shallow embedding of `src/lib/attendance.js` (employee_attendance_system):
`getEmployeeIds` and `analyzeAttendance`, together with the JavaScript
string/number primitives they rely on.  JavaScript strings are modelled as
Lean `String` (processed through their character lists), machine numbers as
`Int`/`Nat`, fractional hour totals as `ℚ`, and JavaScript `NaN`
(invalid `Date`, failed `parseInt`/`Number`) as `none` of an `Option`.
-/

namespace Attendance

/-! ### JavaScript string primitives -/

/-- The whitespace characters recognised by the model of JS `trim` and the
token splitter `/\s+/` (the ASCII subset; the scans in the log contract are
ASCII). -/
def isJsWs (c : Char) : Bool :=
  c == ' ' || c == '\t' || c == '\n' || c == '\r' || c == '\x0b' || c == '\x0c'

/-- Model of `String.prototype.trim`. -/
def jsTrim (s : String) : String :=
  ⟨((s.data.dropWhile isJsWs).reverse.dropWhile isJsWs).reverse⟩

/-- Splitter for `split(sep)` with a single-character separator: empty pieces
are kept, and the empty string yields `[""]`, as in JS. -/
def splitOnCharAux (sep : Char) : List Char → List Char → List String
  | [], acc => [⟨acc.reverse⟩]
  | c :: rest, acc =>
      if c == sep then ⟨acc.reverse⟩ :: splitOnCharAux sep rest []
      else splitOnCharAux sep rest (c :: acc)

/-- Model of `s.split(sep)` for a one-character separator. -/
def splitOnChar (sep : Char) (s : String) : List String :=
  splitOnCharAux sep s.data []

/-- Tokens of `split(/\s+/)` on a string with no leading whitespace:
maximal runs of non-whitespace characters. -/
def wsTokensAux : List Char → List Char → List String
  | [], [] => []
  | [], acc => [⟨acc.reverse⟩]
  | c :: rest, acc =>
      if isJsWs c then
        match acc with
        | [] => wsTokensAux rest []
        | _ => ⟨acc.reverse⟩ :: wsTokensAux rest []
      else wsTokensAux rest (c :: acc)

/-- Model of `line.trim().split(/\s+/)`: after trimming, a blank line gives
`[""]` (JS `"".split(/\s+/)` is `[""]`), otherwise the whitespace-separated
tokens. -/
def jsParts (line : String) : List String :=
  let t := jsTrim line
  if t.data.isEmpty then [""] else wsTokensAux t.data []

/-- Model of `fileText.trim().split('\n')`. -/
def jsLines (fileText : String) : List String :=
  splitOnChar '\n' (jsTrim fileText)

/-- Model of JS `substring(0, n)` (code units; ASCII here). -/
def strTake (n : Nat) (s : String) : String := ⟨s.data.take n⟩

/-! ### JavaScript number parsing -/

def isDigitCh (c : Char) : Bool := '0' ≤ c && c ≤ '9'

def digitVal (c : Char) : Nat := c.toNat - 48

/-- All-digit string to a natural number; `none` when empty or non-digits
occur. -/
def digitsToNat? (cs : List Char) : Option Nat :=
  if cs.isEmpty then none
  else if cs.all isDigitCh then
    some (cs.foldl (fun n c => n * 10 + digitVal c) 0)
  else none

def isHexDigitCh (c : Char) : Bool :=
  isDigitCh c || ('a' ≤ c && c ≤ 'f') || ('A' ≤ c && c ≤ 'F')

def hexVal (c : Char) : Nat :=
  if isDigitCh c then digitVal c
  else if 'a' ≤ c && c ≤ 'f' then c.toNat - 87
  else c.toNat - 55

/-- Sign-stripped body of `parseInt`: an optional `0x`/`0X` hexadecimal
prefix, else the maximal leading run of decimal digits; `none` models `NaN`
(no digits at all). -/
def parseIntBody? : List Char → Option Nat
  | '0' :: 'x' :: rest =>
      let ds := rest.takeWhile isHexDigitCh
      if ds.isEmpty then none
      else some (ds.foldl (fun n c => n * 16 + hexVal c) 0)
  | '0' :: 'X' :: rest =>
      let ds := rest.takeWhile isHexDigitCh
      if ds.isEmpty then none
      else some (ds.foldl (fun n c => n * 16 + hexVal c) 0)
  | cs =>
      digitsToNat? (cs.takeWhile isDigitCh)

/-- Model of JS `parseInt(s)`: skip leading whitespace, optional sign,
then the leading integer prefix (hex after `0x`); `none` models `NaN`.
Trailing garbage is ignored, so `parseInt("12abc") = 12`. -/
def jsParseInt? (s : String) : Option Int :=
  match s.data.dropWhile isJsWs with
  | '+' :: rest => (parseIntBody? rest).map Int.ofNat
  | '-' :: rest => (parseIntBody? rest).map (fun n => -(n : Int))
  | cs => (parseIntBody? cs).map Int.ofNat

/-- Model of JS `Number(s)` restricted to the whole-string integer forms
that arise in the date fields handled here: after trimming, the empty
string is `0`, an optional sign followed only by decimal digits is that
integer, and anything else is `NaN` (`none`).  (JS `Number` also accepts
fractional, exponent and hex forms; none of those can equal the integer
month/year they are compared against with `===`, except contrived `"3.0"`
shapes that never occur in `YYYY-MM-DD` data, so they are folded into
`NaN` here.) -/
def jsNumber? (s : String) : Option Int :=
  let t := jsTrim s
  if t.data.isEmpty then some 0
  else
    match t.data with
    | '+' :: rest => (digitsToNat? rest).map Int.ofNat
    | '-' :: rest => (digitsToNat? rest).map (fun n => -(n : Int))
    | cs => (digitsToNat? cs).map Int.ofNat

/-! ### Calendar arithmetic

The proleptic Gregorian civil calendar, as used by the JS `Date` object
(days-from-civil / civil-from-days, Hinnant's algorithms).  The model fixes
the host timezone offset to zero: `analyzeAttendance` only ever uses
differences and orderings of timestamps, which a constant offset does not
affect. -/

def isLeapYear (y : Int) : Bool :=
  (y.emod 4 == 0 && y.emod 100 != 0) || y.emod 400 == 0

def daysInMonth (y : Int) (m : Nat) : Nat :=
  match m with
  | 1 => 31
  | 2 => if isLeapYear y then 29 else 28
  | 3 => 31
  | 4 => 30
  | 5 => 31
  | 6 => 30
  | 7 => 31
  | 8 => 31
  | 9 => 30
  | 10 => 31
  | 11 => 30
  | 12 => 31
  | _ => 0

/-- Days since 1970-01-01 of the civil date `y-m-d` (`m` in 1..12; `d` may
exceed the month length, extending linearly, which is how the JS `Date`
constructor normalises day overflow). -/
def daysFromCivil (y m d : Int) : Int :=
  let y' := if m ≤ 2 then y - 1 else y
  let era := Int.fdiv y' 400
  let yoe := y' - era * 400
  let mp := Int.emod (m + 9) 12
  let doy := Int.fdiv (153 * mp + 2) 5 + d - 1
  let doe := yoe * 365 + Int.fdiv yoe 4 - Int.fdiv yoe 100 + doy
  era * 146097 + doe - 719468

/-- Civil date `(y, m, d)` of a count of days since 1970-01-01. -/
def civilFromDays (z0 : Int) : Int × Int × Int :=
  let z := z0 + 719468
  let era := Int.fdiv z 146097
  let doe := z - era * 146097
  let yoe :=
    Int.fdiv (doe - Int.fdiv doe 1460 + Int.fdiv doe 36524 - Int.fdiv doe 146096) 365
  let y := yoe + era * 400
  let doy := doe - (365 * yoe + Int.fdiv yoe 4 - Int.fdiv yoe 100)
  let mp := Int.fdiv (5 * doy + 2) 153
  let d := doy - Int.fdiv (153 * mp + 2) 5 + 1
  let m := mp + (if mp < 10 then 3 else -9)
  (y + (if m ≤ 2 then 1 else 0), m, d)

/-- Milliseconds since the epoch of a civil date and time. -/
def msOfCivil (y mo d h mi s : Int) : Int :=
  daysFromCivil y mo d * 86400000 + h * 3600000 + mi * 60000 + s * 1000

/-! ### ISO date/time parsing (model of `new Date(date + "T" + time)`)

The model accepts exactly the `YYYY-MM-DD` / `HH:MM:SS` shapes of the log
contract (the ECMA Date Time String Format fields present in the data),
yielding `none` (Invalid Date / `NaN` time value) otherwise. -/

def parse2? (a b : Char) : Option Nat :=
  if isDigitCh a && isDigitCh b then some (digitVal a * 10 + digitVal b)
  else none

/-- Parse `YYYY-MM-DD` with in-range month and day-of-month. -/
def parseYMD? (s : String) : Option (Nat × Nat × Nat) :=
  match s.data with
  | [y1, y2, y3, y4, '-', m1, m2, '-', d1, d2] => do
      let hi ← parse2? y1 y2
      let lo ← parse2? y3 y4
      let mo ← parse2? m1 m2
      let d ← parse2? d1 d2
      let y := hi * 100 + lo
      if 1 ≤ mo ∧ mo ≤ 12 ∧ 1 ≤ d ∧ d ≤ daysInMonth (y : Int) mo then
        some (y, mo, d)
      else none
  | _ => none

/-- Parse `HH:MM:SS` (ECMA also admits the special instant `24:00:00`). -/
def parseHMS? (s : String) : Option (Nat × Nat × Nat) :=
  match s.data with
  | [h1, h2, ':', m1, m2, ':', s1, s2] => do
      let h ← parse2? h1 h2
      let mi ← parse2? m1 m2
      let sec ← parse2? s1 s2
      if (h ≤ 23 ∧ mi ≤ 59 ∧ sec ≤ 59) ∨ (h = 24 ∧ mi = 0 ∧ sec = 0) then
        some (h, mi, sec)
      else none
  | _ => none

/-- Model of `new Date(date + "T" + time).getTime()`: `none` is the `NaN`
time value of an Invalid Date. -/
def jsDateParse? (date time : String) : Option Int := do
  let (y, mo, d) ← parseYMD? date
  let (h, mi, sec) ← parseHMS? time
  some (msOfCivil (y : Int) (mo : Int) (d : Int) (h : Int) (mi : Int) (sec : Int))

/-! ### Data model -/

/-- A scan record as built by `analyzeAttendance` step 1 and annotated in
place during deduplication/pairing.  `dateTime = none` models an Invalid
`Date`; `inOutStatus = none` models `parseInt` returning `NaN`;
`reportDate = ""` models the field before assignment (`undefined`), which
every record loses during the pairing pass. -/
structure ScanRecord where
  id : String
  date : String
  time : String
  dateTime : Option Int
  inOutStatus : Option Int
  isDuplicate : Bool := false
  reportDate : String := ""
  deriving DecidableEq, Repr

/-- A session pushed by the pairing state machine.  `isNextDayOut`
defaults to `false` for the session shapes whose JS object omits the key
(reading an absent key yields `undefined`, which is falsy everywhere the
field is used). -/
structure Session where
  date : String
  inR : Option ScanRecord
  outR : Option ScanRecord
  status : String
  isNextDayOut : Bool := false
  deriving DecidableEq, Repr

/-- JS `===` on two `parseInt` results: `NaN === NaN` is false. -/
def optIntEq : Option Int → Option Int → Bool
  | some a, some b => a == b
  | _, _ => false

/-- JS subtraction of two `Date` values: `NaN` (`none`) if either is
invalid. -/
def optMsSub : Option Int → Option Int → Option Int
  | some a, some b => some (a - b)
  | _, _ => none

/-- JS `x < bound` where `x` may be `NaN`: `NaN < bound` is false. -/
def optLtB : Option Int → Int → Bool
  | some d, bound => d < bound
  | none, _ => false

/-- Comparator result `a.dateTime - b.dateTime` interpreted as "keep `a`
no later than `b`": a `NaN` comparison behaves like `0`, so either order
is kept by a stable sort. -/
def msLeB : Option Int → Option Int → Bool
  | some a, some b => a ≤ b
  | _, _ => true

/-! ### Orphan-OUT previous-day computation

Model of
`const d = new Date(y, m-1, day); d.setDate(d.getDate() - 1)` followed by
re-formatting with `getFullYear`/`getMonth`/`getDate`.  For the in-range
dates of the log contract (`1 ≤ m ≤ 12`, `1 ≤ day ≤ daysInMonth`), the
constructor performs no normalisation and `setDate(day - 1)` rolls back at
most one month, which is `prevCivil`; out-of-range numbers take the
constructor's civil normalisation (`civilFromDays`/`daysFromCivil`).  The
JS `Date(year, ...)` constructor maps years 0..99 to 1900..1999. -/

/-- The civil day immediately before `y-m-d`, for an in-range date. -/
def prevCivil (y m d : Int) : Int × Int × Int :=
  if 2 ≤ d then (y, m, d - 1)
  else if 2 ≤ m then (y, m - 1, (daysInMonth y (m - 1).toNat : Int))
  else (y - 1, 12, 31)

def pad2 (n : Int) : String :=
  if 0 ≤ n ∧ n < 10 then "0" ++ toString n else toString n

/-- Formatting as in the source:
`getFullYear() + "-" + pad2 (getMonth()+1) + "-" + pad2 (getDate())`. -/
def formatCivil : Int × Int × Int → String
  | (y, m, d) => toString y ++ "-" ++ pad2 m ++ "-" ++ pad2 d

/-- Model of the orphan-OUT branch's previous-day string:
`record.date.split('-').map(Number)` fed to the `Date` rollback above;
a date that does not yield three numbers prints as the Invalid Date
components `"NaN-NaN-NaN"`. -/
def prevDayStr (s : String) : String :=
  let parts := splitOnChar '-' s
  match ((parts.get? 0).bind jsNumber?), ((parts.get? 1).bind jsNumber?),
      ((parts.get? 2).bind jsNumber?) with
  | some y0, some m, some d =>
      let y := if 0 ≤ y0 ∧ y0 ≤ 99 then y0 + 1900 else y0
      if 1 ≤ m ∧ m ≤ 12 ∧ 1 ≤ d ∧ d ≤ (daysInMonth y m.toNat : Int) then
        formatCivil (prevCivil y m d)
      else
        formatCivil (civilFromDays (daysFromCivil (y + Int.fdiv (m - 1) 12)
          (Int.emod (m - 1) 12 + 1) d - 1))
  | _, _, _ => "NaN-NaN-NaN"

/-! ### Parser (step 1) and chronological sort (step 2) -/

/-- Steps 1 of `analyzeAttendance` for one line: tokenize, require at
least 5 fields, and keep the record when the first field equals the
requested employee id. -/
def mkRecord? (employeeId line : String) : Option ScanRecord :=
  let parts := jsParts line
  if parts.length < 5 then none
  else
    let id := parts.getD 0 ""
    let date := parts.getD 1 ""
    let time := parts.getD 2 ""
    let inOutStatus := parts.getD 4 ""
    if id == employeeId then
      some { id := id, date := date, time := time,
             dateTime := jsDateParse? date time,
             inOutStatus := jsParseInt? inOutStatus }
    else none

/-- All records of the requested employee, in file order. -/
def parseRecords (fileText employeeId : String) : List ScanRecord :=
  (jsLines fileText).filterMap (mkRecord? employeeId)

/-- Step 2: stable sort by `a.dateTime - b.dateTime`. -/
def sortRecords (l : List ScanRecord) : List ScanRecord :=
  List.insertionSort (fun a b => msLeB a.dateTime b.dateTime = true) l

/-! ### Deduplicator and Session Pairer (steps 2.5 and 3) -/

/-- The single pass's state: the last non-duplicate record (`lastValid`),
the held open IN (`currentIn`), the sessions pushed so far, and the
records as annotated in place (in sorted order), mirroring the mutation
of `allEmployeeRecords`. -/
structure PairState where
  lastValid : Option ScanRecord
  currentIn : Option ScanRecord
  sessions : List Session
  processed : List ScanRecord
  deriving DecidableEq, Repr

def initState : PairState := ⟨none, none, [], []⟩

/-- The branch taken by a record that is not flagged as a double tap. -/
def nonDupStep (st : PairState) (r : ScanRecord) : PairState :=
  if r.inOutStatus == some 0 then
    -- IN: close a dangling previous IN as OUT MISSING, hold this one.
    let r' := { r with isDuplicate := false, reportDate := r.date }
    let sessions' :=
      match st.currentIn with
      | some ci => st.sessions ++ [{ date := ci.date, inR := some ci, outR := none,
                                     status := "OUT MISSING" }]
      | none => st.sessions
    { lastValid := some r', currentIn := some r',
      sessions := sessions', processed := st.processed ++ [r'] }
  else
    match st.currentIn with
    | some ci =>
        -- OUT matching the held IN: a NORMAL session on the IN's date.
        let r' := { r with isDuplicate := false, reportDate := ci.date }
        { lastValid := some r', currentIn := none,
          sessions := st.sessions ++ [{ date := ci.date, inR := some ci, outR := some r',
                                        status := "NORMAL",
                                        isNextDayOut := r.date != ci.date }],
          processed := st.processed ++ [r'] }
    | none =>
        -- Orphan OUT: attribute to the previous day.
        let pd := prevDayStr r.date
        let r' := { r with isDuplicate := false, reportDate := pd }
        { lastValid := some r', currentIn := none,
          sessions := st.sessions ++ [{ date := pd, inR := none, outR := some r',
                                        status := "NO IN RECORD" }],
          processed := st.processed ++ [r'] }

/-- One iteration of the `forEach` over the sorted records: double-tap
detection first (same `inOutStatus` under `===`, strictly less than one
hour after the last valid tap), else the pairing state machine. -/
def pairStep (st : PairState) (r : ScanRecord) : PairState :=
  match st.lastValid with
  | some lv =>
      if optIntEq r.inOutStatus lv.inOutStatus &&
          optLtB (optMsSub r.dateTime lv.dateTime) 3600000 then
        { st with processed :=
            st.processed ++ [{ r with isDuplicate := true, reportDate := lv.reportDate }] }
      else nonDupStep st r
  | none => nonDupStep st r

/-- The double-tap condition of `pairStep`, as a standalone predicate. -/
def isDoubleTap (st : PairState) (r : ScanRecord) : Bool :=
  match st.lastValid with
  | some lv =>
      optIntEq r.inOutStatus lv.inOutStatus &&
        optLtB (optMsSub r.dateTime lv.dateTime) 3600000
  | none => false

/-- The full pairing pass plus the end-of-stream closure of a remaining
lone IN. -/
def pairAll (l : List ScanRecord) : PairState :=
  let st := l.foldl pairStep initState
  match st.currentIn with
  | some ci =>
      { st with sessions := st.sessions ++ [{ date := ci.date, inR := some ci, outR := none,
                                              status := "OUT MISSING" }] }
  | none => st

/-! ### Period Filter (step 4) -/

/-- `const [sYear, sMonth] = s.date.split('-').map(Number)` and
`sMonth === parseInt(month) && sYear === parseInt(year)`.  The model takes
the month and year as the integers the route handler supplies
(`parseInt` of an integer-valued argument is that integer); a `NaN`
component compares unequal to everything. -/
def dateInPeriod (month year : Int) (date : String) : Bool :=
  let parts := splitOnChar '-' date
  match ((parts.get? 0).bind jsNumber?), ((parts.get? 1).bind jsNumber?) with
  | some sYear, some sMonth => sMonth == month && sYear == year
  | _, _ => false

def sessionInPeriod (month year : Int) (s : Session) : Bool :=
  dateInPeriod month year s.date

/-! ### Daily Aggregator (step 5) -/

/-- `Array.from`-style first-occurrence deduplication: the insertion order
of object keys (none of the date keys is array-index-like, so key order is
insertion order). -/
def addUnique (acc : List String) (x : String) : List String :=
  if x ∈ acc then acc else acc ++ [x]

def dedupFirst (l : List String) : List String := l.foldl addUnique []

/-- Code-unit lexicographic strict order on character lists. -/
def strLexLtB : List Char → List Char → Bool
  | [], [] => false
  | [], _ :: _ => true
  | _ :: _, [] => false
  | a :: as, b :: bs =>
      if a.toNat < b.toNat then true
      else if b.toNat < a.toNat then false
      else strLexLtB as bs

/-- Default `Array.prototype.sort()` comparison: code-unit lexicographic
order on strings. -/
def strLeB (a b : String) : Bool := !strLexLtB b.data a.data

/-- Model of `toLocaleTimeString('en-US', {hour:'numeric', minute:'2-digit',
hour12:true})` (with an ASCII space before the day period; an Invalid Date
prints as `"Invalid Date"`). -/
def formatTime : Option Int → String
  | none => "Invalid Date"
  | some ms =>
      let msOfDay := Int.emod ms 86400000
      let h := Int.fdiv msOfDay 3600000
      let mi := Int.fdiv (Int.emod msOfDay 3600000) 60000
      let h12 := if Int.emod h 12 == 0 then 12 else Int.emod h 12
      let ampm := if h < 12 then "AM" else "PM"
      toString h12 ++ ":" ++ pad2 mi ++ " " ++ ampm

/-- One entry of a day's `logs`. -/
structure LogEntry where
  time : String
  displayTime : String
  displayDate : String
  dateTime : Option Int
  type : String
  isDuplicate : Bool
  deriving DecidableEq, Repr

def toLogEntry (r : ScanRecord) : LogEntry :=
  { time := strTake 5 r.time,
    displayTime := formatTime r.dateTime,
    displayDate := r.date,
    dateTime := r.dateTime,
    type := if r.inOutStatus == some 0 then "IN" else "OUT",
    isDuplicate := r.isDuplicate }

/-- The `dayLogs` of a date: every processed record whose `reportDate`
equals the date (duplicates included), as log entries, re-sorted by the
same timestamp comparator. -/
def dayLogsFor (processed : List ScanRecord) (date : String) : List LogEntry :=
  List.insertionSort (fun a b => msLeB a.dateTime b.dateTime = true)
    ((processed.filter (fun r => r.reportDate == date)).map toLogEntry)

/-- The running state of the `daySessions.forEach`.  The source accumulates
`totalDayHours` in hours (`diffMs / 3600000` for a NORMAL pair, the fixed
`8` fallback otherwise); every addend is an integral number of milliseconds
divided by 3600000, so the model carries the exact total in milliseconds
(`totalMs`), with `none` for the `NaN` of an invalid timestamp inside a
NORMAL pair. -/
structure DayAcc where
  totalMs : Option Int
  inTime : String
  outTime : String
  status : String
  deriving DecidableEq, Repr

def initDayAcc : DayAcc := ⟨some 0, "-", "-", "NORMAL"⟩

/-- One iteration of the per-day session loop: first-IN/last-OUT display
times, then either the real session length in hours (a NORMAL session with
both scans) or the fixed 8-hour fallback together with the status
escalation (`OUT MISSING` unconditionally, `NO IN RECORD` only while the
day is still `NORMAL`). -/
def dayStep (acc : DayAcc) (sess : Session) : DayAcc :=
  let acc1 :=
    match sess.inR with
    | some i => if acc.inTime == "-" then { acc with inTime := strTake 5 i.time } else acc
    | none => acc
  let acc2 :=
    match sess.outR with
    | some o => { acc1 with outTime := strTake 5 o.time }
    | none => acc1
  match sess.inR, sess.outR, sess.status == "NORMAL" with
  | some i, some o, true =>
      let diffMs : Option Int :=
        match o.dateTime, i.dateTime with
        | some a, some b => some (a - b)
        | _, _ => none
      { acc2 with totalMs :=
          match acc2.totalMs, diffMs with
          | some t, some h => some (t + h)
          | _, _ => none }
  | _, _, _ =>
      let st1 := if sess.status == "OUT MISSING" then "OUT MISSING" else acc2.status
      let st2 := if sess.status == "NO IN RECORD" && st1 == "NORMAL" then "NO IN RECORD"
                 else st1
      { acc2 with totalMs := acc2.totalMs.map (fun t => t + 8 * 3600000), status := st2 }

/-- `parseFloat((ms / 3600000).toFixed(2))`, expressed exactly in hundredths
of an hour: the closest hundredth to `ms / 3600000`, ties resolved to the
larger candidate (the ECMA `toFixed` tie rule); `NaN` stays `NaN`.
`⌊(ms / 3600000) * 100 + 1 / 2⌋ = ⌊(100 * ms + 1800000) / 3600000⌋`. -/
def roundTo2 (q : Option Int) : Option Int :=
  q.map (fun ms => Int.fdiv (100 * ms + 1800000) 3600000)

/-- `totalHours` holds the exact value of the source's 2-decimal float in
hundredths of an hour (so a reported `9.0` is `some 900` and `0.33` is
`some 33`); `none` is `NaN`. -/
structure DailyRecord where
  date : String
  inTime : String
  outTime : String
  totalHours : Option Int
  scanCount : Nat
  status : String
  isNextDayOut : Bool
  logs : List LogEntry
  deriving DecidableEq, Repr

/-- The daily record assembled for one date from its sessions. -/
def buildDay (processed : List ScanRecord) (filtered : List Session)
    (date : String) : DailyRecord :=
  let daySessions := filtered.filter (fun s => s.date == date)
  let logs := dayLogsFor processed date
  let acc := daySessions.foldl dayStep initDayAcc
  { date := date,
    inTime := acc.inTime,
    outTime := acc.outTime,
    totalHours := roundTo2 acc.totalMs,
    scanCount := logs.length,
    status := acc.status,
    isNextDayOut := daySessions.any (fun s => s.isNextDayOut),
    logs := logs }

/-- The loop over the sorted dates, carrying the two running totals
(`totalNormalDays`, `totalOutMissingDays`). -/
def buildDays (processed : List ScanRecord) (filtered : List Session) :
    List String → List DailyRecord × Nat × Nat
  | [] => ([], 0, 0)
  | date :: rest =>
      let dr := buildDay processed filtered date
      let (tail, n, o) := buildDays processed filtered rest
      (dr :: tail,
       (if dr.status == "NORMAL" then 1 else 0) + n,
       (if dr.status == "OUT MISSING" then 1 else 0) + o)

structure Summary where
  totalDaysWithRecords : Nat
  totalOutMissingDays : Nat
  totalNormalDays : Nat
  deriving DecidableEq, Repr

structure Report where
  employeeId : String
  month : Int
  year : Int
  summary : Summary
  dailyRecords : List DailyRecord
  deriving DecidableEq, Repr

/-! ### The two entry points -/

/-- Model of `analyzeAttendance(fileText, employeeId, month, year)`. -/
def analyzeAttendance (fileText employeeId : String) (month year : Int) : Report :=
  let final := pairAll (sortRecords (parseRecords fileText employeeId))
  let filtered := final.sessions.filter (sessionInPeriod month year)
  let sortedDates :=
    List.insertionSort (fun a b => strLeB a b = true) (dedupFirst (filtered.map (·.date)))
  let built := buildDays final.processed filtered sortedDates
  { employeeId := employeeId, month := month, year := year,
    summary := { totalDaysWithRecords := built.1.length,
                 totalOutMissingDays := built.2.2,
                 totalNormalDays := built.2.1 },
    dailyRecords := built.1 }

/-- The sort comparator of `getEmployeeIds`: numerically when both ids
have a `parseInt` value, else the string comparison (`localeCompare`; the
model uses code-unit order, and no theorem below depends on the relative
order it produces, only on membership and distinctness). -/
def idCmp (a b : String) : Int :=
  match jsParseInt? a, jsParseInt? b with
  | some x, some y => x - y
  | _, _ => if a == b then 0 else if strLeB a b then -1 else 1

/-- Model of `getEmployeeIds(fileText)`: the set of truthy first tokens in
insertion order, sorted with `idCmp`. -/
def getEmployeeIds (fileText : String) : List String :=
  let ids := (jsLines fileText).foldl
    (fun acc line =>
      match jsParts line with
      | p :: _ => if p != "" then addUnique acc p else acc
      | [] => acc) []
  List.insertionSort (fun a b => idCmp a b ≤ 0) ids

/-! ### Spec-side reading used by claim C7

The spec speaks of "numeric identifiers"; an identifier is numeric in the
plain reading when it consists of decimal digits only.  (The code instead
uses `parseInt`, which also accepts ids with a numeric head and trailing
garbage, such as `"12abc"`.) -/
def specNumericId (s : String) : Bool := !s.data.isEmpty && s.data.all isDigitCh

/-! ### Concrete inputs from the spec's testable properties -/

def c1Log : String :=
  "101 2024-03-01 09:00:00 1 0\n101 2024-03-01 18:00:00 1 1\n101 2024-03-02 09:05:00 1 0"

def outRec0305 : ScanRecord :=
  { id := "101", date := "2024-03-05", time := "17:00:00",
    dateTime := jsDateParse? "2024-03-05" "17:00:00", inOutStatus := jsParseInt? "1" }

/-- A lone OUT on the valid calendar date 0050-03-05 (year 50). -/
def outRec0050 : ScanRecord :=
  { id := "101", date := "0050-03-05", time := "17:00:00",
    dateTime := jsDateParse? "0050-03-05" "17:00:00", inOutStatus := jsParseInt? "1" }

/-- Two OUT scans ten minutes apart with different nonzero status codes
(`1` then `2`): the same direction (OUT) but different raw values. -/
def c4OutA : ScanRecord :=
  { id := "101", date := "2024-03-01", time := "18:00:00",
    dateTime := jsDateParse? "2024-03-01" "18:00:00", inOutStatus := jsParseInt? "1" }

def c4OutB : ScanRecord :=
  { id := "101", date := "2024-03-01", time := "18:10:00",
    dateTime := jsDateParse? "2024-03-01" "18:10:00", inOutStatus := jsParseInt? "2" }

def c3Log : String := "101 2024-01-31 23:50:00 1 0\n101 2024-02-01 00:10:00 1 1"

def c3InRec : ScanRecord :=
  { id := "101", date := "2024-01-31", time := "23:50:00",
    dateTime := jsDateParse? "2024-01-31" "23:50:00", inOutStatus := jsParseInt? "0" }

def c3OutRec : ScanRecord :=
  { id := "101", date := "2024-02-01", time := "00:10:00",
    dateTime := jsDateParse? "2024-02-01" "00:10:00", inOutStatus := jsParseInt? "1" }

def c4Log : String :=
  "101 2024-03-01 09:00:00 1 0\n101 2024-03-01 09:10:00 1 0\n101 2024-03-01 17:10:00 1 1"

def c4In1 : ScanRecord :=
  { id := "101", date := "2024-03-01", time := "09:00:00",
    dateTime := jsDateParse? "2024-03-01" "09:00:00", inOutStatus := jsParseInt? "0" }

def c4In2 : ScanRecord :=
  { id := "101", date := "2024-03-01", time := "09:10:00",
    dateTime := jsDateParse? "2024-03-01" "09:10:00", inOutStatus := jsParseInt? "0" }

/-- `c3InRec` as annotated by its own pairing iteration. -/
def c3InAnnot : ScanRecord := { c3InRec with isDuplicate := false, reportDate := "2024-01-31" }

/-- `c4In1` as annotated by its own pairing iteration. -/
def c4In1Annot : ScanRecord := { c4In1 with isDuplicate := false, reportDate := "2024-03-01" }

def c7Log : String := "12abc x\n111 y"

def c7NumLog : String := "10 x\n2 y\n2 z"

def c8Log : String := "101 2024-03-01 99:99:99 1 0"

def c10Log : String := "7 x\n8 a b c d e"

/-! ## Helper lemmas -/

theorem pairStep_of_not_doubleTap (st : PairState) (r : ScanRecord)
    (h : isDoubleTap st r = false) : pairStep st r = nonDupStep st r := by
  unfold pairStep isDoubleTap at *
  cases hlv : st.lastValid with
  | none => rfl
  | some lv => simp only [hlv] at h ⊢; simp [h]

theorem pairStep_of_doubleTap (st : PairState) (r : ScanRecord) (lv : ScanRecord)
    (hlv : st.lastValid = some lv) (h : isDoubleTap st r = true) :
    pairStep st r =
      { st with processed :=
          st.processed ++ [{ r with isDuplicate := true, reportDate := lv.reportDate }] } := by
  unfold pairStep isDoubleTap at *
  simp only [hlv] at h ⊢
  simp [h]

/-! ## Claims -/

/-- C1: on the three-line log for employee `101`, month 3, year 2024, the
report has two daily records: 2024-03-01 with status NORMAL and 9.0 total
hours (900 hundredths), 2024-03-02 with status OUT MISSING and 8.0 total
hours (800 hundredths), and the summary counts 2 days with records, 1
normal day and 1 out-missing day. -/
theorem c1_end_to_end_report :
    (analyzeAttendance c1Log "101" 3 2024).dailyRecords.length = 2 ∧
    (analyzeAttendance c1Log "101" 3 2024).dailyRecords.map
        (fun d => (d.date, d.status, d.totalHours)) =
      [("2024-03-01", "NORMAL", some 900), ("2024-03-02", "OUT MISSING", some 800)] ∧
    (analyzeAttendance c1Log "101" 3 2024).summary =
      { totalDaysWithRecords := 2, totalNormalDays := 1, totalOutMissingDays := 1 } := by
  refine ⟨by decide, by decide, by decide⟩

/-- C2 counterexample: the previous-day rule does not hold for every OUT
record.  A lone OUT on the valid calendar date 0050-03-05 is attributed to
1950-03-04 — the JS `Date(year, ...)` constructor used by the orphan-OUT
branch maps two-digit years 0-99 to 1900-1999 — and its `reportDate` is
set to 1950-03-04 as well, not to the calendar day immediately before
(0050-03-04, which the code's own formatter would print as `50-03-04`). -/
theorem c2_counterexample :
    outRec0050.date = "0050-03-05" ∧
    (pairStep initState outRec0050).sessions.map (fun s => (s.date, s.status)) =
      [("1950-03-04", "NO IN RECORD")] ∧
    (pairStep initState outRec0050).processed.map (·.reportDate) = ["1950-03-04"] ∧
    prevCivil 50 3 5 = (50, 3, 4) ∧
    ("1950-03-04" : String) ≠ formatCivil (50, 3, 4) := by
  refine ⟨by decide, by decide, by decide, by decide, by decide⟩

/-- C2 (amended): an OUT record processed while no open IN is held (and
not flagged as a double tap) produces exactly one new session, with status
NO IN RECORD, attributed to the calendar day immediately before the OUT's
own calendar date (`prevCivil`), and the OUT's `reportDate` is set to that
previous day — provided the OUT's `date` field is a dash-separated numeric
date in range with year at least 100; for two-digit years 0-99 the JS
`Date` constructor offsets the year by 1900 (see `c2_counterexample`), so
there the session lands on the previous day of year 1900 + y instead. -/
theorem c2_orphan_out_prev_day (st : PairState) (r : ScanRecord)
    (hdup : isDoubleTap st r = false)
    (hout : ¬ r.inOutStatus = some 0)
    (hin : st.currentIn = none)
    (sy sm sd : String) (y m d : Int)
    (hsplit : splitOnChar '-' r.date = [sy, sm, sd])
    (hy : jsNumber? sy = some y) (hm : jsNumber? sm = some m)
    (hd : jsNumber? sd = some d)
    (hy100 : 100 ≤ y) (hm1 : 1 ≤ m) (hm12 : m ≤ 12) (hd1 : 1 ≤ d)
    (hdm : d ≤ (daysInMonth y m.toNat : Int)) :
    (pairStep st r).sessions = st.sessions ++
      [{ date := formatCivil (prevCivil y m d), inR := none,
         outR := some { r with isDuplicate := false,
                               reportDate := formatCivil (prevCivil y m d) },
         status := "NO IN RECORD" }] ∧
    (pairStep st r).processed = st.processed ++
      [{ r with isDuplicate := false, reportDate := formatCivil (prevCivil y m d) }] := by
  have hpd : prevDayStr r.date = formatCivil (prevCivil y m d) := by
    unfold prevDayStr
    rw [hsplit]
    simp only [List.get?, Option.bind, hy, hm, hd]
    simp only [show (if 0 ≤ y ∧ y ≤ 99 then y + 1900 else y) = y from if_neg (by omega)]
    rw [if_pos ⟨hm1, hm12, hd1, hdm⟩]
  rw [pairStep_of_not_doubleTap st r hdup]
  unfold nonDupStep
  have h0 : (r.inOutStatus == some 0) = false := by
    cases h : r.inOutStatus with
    | none => rfl
    | some v =>
        have hv : v ≠ 0 := fun hv0 => hout (by rw [h, hv0])
        simp [hv]
  rw [h0]
  simp [hin, hpd]

/-- C2 witness: a lone OUT on 2024-03-05 with no open IN yields exactly
one NO IN RECORD session attributed to 2024-03-04. -/
theorem c2_witness :
    formatCivil (prevCivil 2024 3 5) = "2024-03-04" ∧
    ((pairStep initState outRec0305).sessions = initState.sessions ++
      [{ date := formatCivil (prevCivil 2024 3 5), inR := none,
         outR := some { outRec0305 with
                        isDuplicate := false,
                        reportDate := formatCivil (prevCivil 2024 3 5) },
         status := "NO IN RECORD" }] ∧
     (pairStep initState outRec0305).processed = initState.processed ++
      [{ outRec0305 with isDuplicate := false,
                         reportDate := formatCivil (prevCivil 2024 3 5) }]) :=
  ⟨by decide,
   c2_orphan_out_prev_day initState outRec0305 (by decide) (by decide) rfl
     "2024" "03" "05" 2024 3 5 (by decide) (by decide) (by decide) (by decide)
     (by decide) (by decide) (by decide) (by decide) (by decide)⟩

/-- C3: an OUT record processed while an IN is held (and not flagged as a
double tap) closes exactly one NORMAL session attributed to the held IN's
calendar date, with `isNextDayOut` (the cross-midnight marker) set exactly
when the OUT's calendar date differs from the IN's; the OUT's `reportDate`
becomes the IN's date, and the period filter's verdict on the produced
session is the verdict on the IN's date (so the session is reported under
the IN's month even when the OUT fell in the next one). -/
theorem c3_normal_session_on_in_date (st : PairState) (r ci : ScanRecord)
    (hdup : isDoubleTap st r = false)
    (hout : ¬ r.inOutStatus = some 0)
    (hin : st.currentIn = some ci) :
    ((pairStep st r).sessions = st.sessions ++
      [{ date := ci.date, inR := some ci,
         outR := some { r with isDuplicate := false, reportDate := ci.date },
         status := "NORMAL", isNextDayOut := r.date != ci.date }] ∧
     (pairStep st r).currentIn = none ∧
     (pairStep st r).processed = st.processed ++
       [{ r with isDuplicate := false, reportDate := ci.date }]) ∧
    ((r.date != ci.date) = true ↔ r.date ≠ ci.date) ∧
    (∀ month year : Int,
      sessionInPeriod month year
        { date := ci.date, inR := some ci,
          outR := some { r with isDuplicate := false, reportDate := ci.date },
          status := "NORMAL", isNextDayOut := r.date != ci.date } =
      dateInPeriod month year ci.date) := by
  rw [pairStep_of_not_doubleTap st r hdup]
  unfold nonDupStep
  have h0 : (r.inOutStatus == some 0) = false := by
    cases h : r.inOutStatus with
    | none => rfl
    | some v =>
        have hv : v ≠ 0 := fun hv0 => hout (by rw [h, hv0])
        simp [hv]
  rw [h0]
  refine ⟨by simp [hin], ?_, fun month year => rfl⟩
  simp [ne_eq, bne_iff_ne]

/-- C3 witness: an IN at 2024-01-31T23:50:00 paired with an OUT at
2024-02-01T00:10:00 yields one session attributed to 2024-01-31 with the
cross-midnight marker set; end to end, the January 2024 report contains
exactly the day 2024-01-31 with totalHours 0.33 (33 hundredths) and
`isNextDayOut = true`, while the February 2024 report is empty. -/
theorem c3_witness :
    ((analyzeAttendance c3Log "101" 1 2024).dailyRecords.map
        (fun d => (d.date, d.status, d.totalHours, d.isNextDayOut)) =
      [("2024-01-31", "NORMAL", some 33, true)] ∧
     (analyzeAttendance c3Log "101" 2 2024).dailyRecords = []) ∧
    (((pairStep (pairStep initState c3InRec) c3OutRec).sessions =
        (pairStep initState c3InRec).sessions ++
        [{ date := c3InAnnot.date, inR := some c3InAnnot,
           outR := some { c3OutRec with isDuplicate := false, reportDate := c3InAnnot.date },
           status := "NORMAL", isNextDayOut := c3OutRec.date != c3InAnnot.date }] ∧
      (pairStep (pairStep initState c3InRec) c3OutRec).currentIn = none ∧
      (pairStep (pairStep initState c3InRec) c3OutRec).processed =
        (pairStep initState c3InRec).processed ++
        [{ c3OutRec with isDuplicate := false, reportDate := c3InAnnot.date }]) ∧
     ((c3OutRec.date != c3InAnnot.date) = true ↔ c3OutRec.date ≠ c3InAnnot.date) ∧
     (∀ month year : Int,
       sessionInPeriod month year
         { date := c3InAnnot.date, inR := some c3InAnnot,
           outR := some { c3OutRec with isDuplicate := false, reportDate := c3InAnnot.date },
           status := "NORMAL", isNextDayOut := c3OutRec.date != c3InAnnot.date } =
       dateInPeriod month year c3InAnnot.date)) :=
  ⟨⟨by decide, by decide⟩,
   c3_normal_session_on_in_date (pairStep initState c3InRec) c3OutRec c3InAnnot
     (by decide) (by decide) (by decide)⟩

/-- C4 counterexample: the double-tap rule keys on the raw `inOutStatus`
value under JS `===`, not on the IN/OUT direction.  Two OUT-direction
scans ten minutes apart whose status codes are `1` and then `2` are not
deduplicated (`2 !== 1`): the second is not marked `isDuplicate`, and
instead of being excluded from pairing it creates its own second
NO IN RECORD session on the previous day. -/
theorem c4_counterexample :
    (c4OutA.inOutStatus ≠ some 0 ∧ c4OutB.inOutStatus ≠ some 0) ∧
    optMsSub c4OutB.dateTime c4OutA.dateTime = some 600000 ∧
    isDoubleTap (pairStep initState c4OutA) c4OutB = false ∧
    (pairStep (pairStep initState c4OutA) c4OutB).processed.map (·.isDuplicate) =
      [false, false] ∧
    (pairStep (pairStep initState c4OutA) c4OutB).sessions.map
        (fun s => (s.date, s.status)) =
      [("2024-02-29", "NO IN RECORD"), ("2024-02-29", "NO IN RECORD")] := by
  refine ⟨⟨by decide, by decide⟩, by decide, by decide, by decide, by decide⟩

/-- C4 (amended): a record is marked as a double tap exactly when
`lastValid` exists, has the same raw `inOutStatus` value under JS `===`
(not merely the same IN/OUT direction — see `c4_counterexample`), and lies
strictly less than one hour later than it; the record is then marked
`isDuplicate = true`, inherits `lastValid`'s `reportDate`, and changes
nothing else: the sessions, the held IN and `lastValid` are untouched, so
the record is excluded from pairing while remaining in the processed list
that feeds each day's `scanCount` and `logs`. -/
theorem c4_double_tap_marked (st : PairState) (r lv : ScanRecord)
    (hlv : st.lastValid = some lv)
    (hsame : optIntEq r.inOutStatus lv.inOutStatus = true)
    (hlt : optLtB (optMsSub r.dateTime lv.dateTime) 3600000 = true) :
    pairStep st r =
      { st with processed :=
          st.processed ++ [{ r with isDuplicate := true, reportDate := lv.reportDate }] } := by
  apply pairStep_of_doubleTap st r lv hlv
  simp [isDoubleTap, hlv, hsame, hlt]

/-- C4 witness: two IN scans 10 minutes apart followed by an OUT 8 hours
after the second; the second IN is flagged as a duplicate inheriting the
first IN's report date, the pairing yields exactly one NORMAL session
built from the first IN, and the day's `scanCount` is 3 with the duplicate
visible in the logs. -/
theorem c4_witness :
    (pairStep (pairStep initState c4In1) c4In2 =
      { pairStep initState c4In1 with processed :=
          (pairStep initState c4In1).processed ++
            [{ c4In2 with isDuplicate := true, reportDate := c4In1Annot.reportDate }] }) ∧
    ((pairAll (sortRecords (parseRecords c4Log "101"))).sessions.map
        (fun s => (s.status, s.inR.map (·.time), s.outR.map (·.time))) =
      [("NORMAL", some "09:00:00", some "17:10:00")] ∧
     (analyzeAttendance c4Log "101" 3 2024).dailyRecords.map
        (fun d => (d.date, d.status, d.scanCount)) =
      [("2024-03-01", "NORMAL", 3)] ∧
     (analyzeAttendance c4Log "101" 3 2024).dailyRecords.map
        (fun d => d.logs.map (fun l => (l.time, l.type, l.isDuplicate))) =
      [[("09:00", "IN", false), ("09:10", "IN", true), ("17:10", "OUT", false)]]) :=
  ⟨c4_double_tap_marked (pairStep initState c4In1) c4In2 c4In1Annot
     (by decide) (by decide) (by decide),
   by decide, by decide, by decide⟩

theorem nonDupStep_keeps_scan (st : PairState) (r : ScanRecord)
    (h : ∀ s ∈ st.sessions, s.inR.isSome = true ∨ s.outR.isSome = true) :
    ∀ s ∈ (nonDupStep st r).sessions, s.inR.isSome = true ∨ s.outR.isSome = true := by
  intro s hs
  unfold nonDupStep at hs
  split at hs
  · cases hci : st.currentIn with
    | some ci =>
        rw [hci] at hs
        simp only [List.mem_append, List.mem_singleton] at hs
        rcases hs with hs | hs
        · exact h s hs
        · subst hs; left; rfl
    | none => rw [hci] at hs; exact h s hs
  · cases hci : st.currentIn with
    | some ci =>
        rw [hci] at hs
        simp only [List.mem_append, List.mem_singleton] at hs
        rcases hs with hs | hs
        · exact h s hs
        · subst hs; left; rfl
    | none =>
        rw [hci] at hs
        simp only [List.mem_append, List.mem_singleton] at hs
        rcases hs with hs | hs
        · exact h s hs
        · subst hs; right; rfl

theorem pairStep_keeps_scan (st : PairState) (r : ScanRecord)
    (h : ∀ s ∈ st.sessions, s.inR.isSome = true ∨ s.outR.isSome = true) :
    ∀ s ∈ (pairStep st r).sessions, s.inR.isSome = true ∨ s.outR.isSome = true := by
  intro s hs
  unfold pairStep at hs
  cases hlv : st.lastValid with
  | none => rw [hlv] at hs; exact nonDupStep_keeps_scan st r h s hs
  | some lv =>
      simp only [hlv] at hs
      by_cases hc : (optIntEq r.inOutStatus lv.inOutStatus &&
          optLtB (optMsSub r.dateTime lv.dateTime) 3600000) = true
      · rw [if_pos hc] at hs; exact h s hs
      · rw [if_neg hc] at hs; exact nonDupStep_keeps_scan st r h s hs

theorem foldl_pairStep_keeps_scan (l : List ScanRecord) (st : PairState)
    (h : ∀ s ∈ st.sessions, s.inR.isSome = true ∨ s.outR.isSome = true) :
    ∀ s ∈ (l.foldl pairStep st).sessions, s.inR.isSome = true ∨ s.outR.isSome = true := by
  induction l generalizing st with
  | nil => exact h
  | cons r rest ih => exact ih (pairStep st r) (pairStep_keeps_scan st r h)

theorem pairAll_sessions (l : List ScanRecord) :
    (pairAll l).sessions =
      (l.foldl pairStep initState).sessions ++
      (match (l.foldl pairStep initState).currentIn with
       | some ci => [{ date := ci.date, inR := some ci, outR := none,
                       status := "OUT MISSING" }]
       | none => []) := by
  unfold pairAll
  cases h : (l.foldl pairStep initState).currentIn with
  | some ci => simp [h]
  | none => simp [h]

/-- C5: every session produced by the pairing pass over the parsed,
sorted records of any log and employee — including the end-of-stream
closure — has a non-null `inR` or a non-null `outR` (never both null). -/
theorem c5_session_never_both_null (fileText employeeId : String) (s : Session)
    (hs : s ∈ (pairAll (sortRecords (parseRecords fileText employeeId))).sessions) :
    s.inR.isSome = true ∨ s.outR.isSome = true := by
  have base := foldl_pairStep_keeps_scan
    (sortRecords (parseRecords fileText employeeId)) initState
    (by intro s hs; simp [initState] at hs)
  rw [pairAll_sessions] at hs
  simp only [List.mem_append] at hs
  rcases hs with hs | hs
  · exact base s hs
  · cases hci : (List.foldl pairStep initState
        (sortRecords (parseRecords fileText employeeId))).currentIn with
    | some ci =>
        rw [hci] at hs
        simp only [List.mem_singleton] at hs
        subst hs; left; rfl
    | none => rw [hci] at hs; simp at hs

/-- C5 witness: the first session the pairer builds from the three-line
log has a non-null scan. -/
theorem c5_witness :
    (((pairAll (sortRecords (parseRecords c1Log "101"))).sessions.getD 0
        { date := "", inR := none, outR := none, status := "" }).inR.isSome = true ∨
     ((pairAll (sortRecords (parseRecords c1Log "101"))).sessions.getD 0
        { date := "", inR := none, outR := none, status := "" }).outR.isSome = true) :=
  c5_session_never_both_null c1Log "101" _ (by decide)

/-- How one session moves the day status: OUT MISSING wins outright,
NO IN RECORD only claims a day that is still NORMAL, and every other
session (in particular a NORMAL one) leaves the status alone. -/
theorem dayStep_status (a : DayAcc) (s : Session) :
    (dayStep a s).status =
      if s.status = "OUT MISSING" then "OUT MISSING"
      else if s.status = "NO IN RECORD" ∧ a.status = "NORMAL" then "NO IN RECORD"
      else a.status := by
  unfold dayStep
  cases hin : s.inR with
  | none =>
      cases hout : s.outR with
      | none =>
          cases hst : (s.status == "NORMAL") <;>
            simp_all [beq_iff_eq] <;> split_ifs <;> simp_all
      | some o =>
          cases hst : (s.status == "NORMAL") <;>
            simp_all [beq_iff_eq] <;> split_ifs <;> simp_all
  | some i =>
      cases hout : s.outR with
      | none =>
          cases hst : (s.status == "NORMAL") <;>
            simp_all [beq_iff_eq] <;> split_ifs <;> simp_all
      | some o =>
          cases hst : (s.status == "NORMAL") <;>
            simp_all [beq_iff_eq] <;> split_ifs <;> simp_all

theorem foldl_dayStep_no_flags (l : List Session) (a : DayAcc)
    (h : ∀ s ∈ l, s.status ≠ "OUT MISSING" ∧ s.status ≠ "NO IN RECORD") :
    (l.foldl dayStep a).status = a.status := by
  induction l generalizing a with
  | nil => rfl
  | cons s rest ih =>
      have hs := h s (List.mem_cons_self s rest)
      have := ih (dayStep a s) (fun t ht => h t (List.mem_cons_of_mem s ht))
      rw [List.foldl_cons, this, dayStep_status, if_neg hs.1, if_neg (fun hc => hs.2 hc.1)]

theorem foldl_dayStep_out_missing_sticky (l : List Session) (a : DayAcc)
    (ha : a.status = "OUT MISSING") :
    (l.foldl dayStep a).status = "OUT MISSING" := by
  induction l generalizing a with
  | nil => exact ha
  | cons s rest ih =>
      rw [List.foldl_cons]
      apply ih
      rw [dayStep_status]
      split_ifs with h1 h2
      · rfl
      · exact absurd (h2.2.symm.trans ha) (by decide)
      · exact ha

theorem foldl_dayStep_out_missing (l : List Session) (a : DayAcc)
    (h : ∃ s ∈ l, s.status = "OUT MISSING") :
    (l.foldl dayStep a).status = "OUT MISSING" := by
  induction l generalizing a with
  | nil => simp at h
  | cons s rest ih =>
      rw [List.foldl_cons]
      rcases h with ⟨t, ht, hst⟩
      rcases List.mem_cons.mp ht with rfl | ht'
      · apply foldl_dayStep_out_missing_sticky
        rw [dayStep_status, if_pos hst]
      · exact ih (dayStep a s) ⟨t, ht', hst⟩

theorem foldl_dayStep_no_in_sticky (l : List Session) (a : DayAcc)
    (ha : a.status = "NO IN RECORD")
    (h : ∀ s ∈ l, s.status ≠ "OUT MISSING") :
    (l.foldl dayStep a).status = "NO IN RECORD" := by
  induction l generalizing a with
  | nil => exact ha
  | cons s rest ih =>
      rw [List.foldl_cons]
      apply ih (dayStep a s) _ (fun t ht => h t (List.mem_cons_of_mem s ht))
      rw [dayStep_status, if_neg (h s (List.mem_cons_self s rest))]
      split_ifs with h2
      · rfl
      · exact ha

theorem foldl_dayStep_no_in (l : List Session) (a : DayAcc)
    (ha : a.status = "NORMAL")
    (hom : ∀ s ∈ l, s.status ≠ "OUT MISSING")
    (h : ∃ s ∈ l, s.status = "NO IN RECORD") :
    (l.foldl dayStep a).status = "NO IN RECORD" := by
  induction l generalizing a with
  | nil => simp at h
  | cons s rest ih =>
      rw [List.foldl_cons]
      by_cases hs : s.status = "NO IN RECORD"
      · apply foldl_dayStep_no_in_sticky
        · rw [dayStep_status, if_neg (hom s (List.mem_cons_self s rest)), if_pos ⟨hs, ha⟩]
        · exact fun t ht => hom t (List.mem_cons_of_mem s ht)
      · rcases h with ⟨t, ht, hst⟩
        rcases List.mem_cons.mp ht with rfl | ht'
        · exact absurd hst hs
        · apply ih (dayStep a s) _ (fun u hu => hom u (List.mem_cons_of_mem s hu)) ⟨t, ht', hst⟩
          rw [dayStep_status, if_neg (hom s (List.mem_cons_self s rest)),
            if_neg (fun hc => hs hc.1)]
          exact ha

/-- C6: the status of a day built by the aggregator is NORMAL when all of
the day's sessions are NORMAL; it is OUT MISSING as soon as any session of
the day is OUT MISSING, in any position and regardless of NO IN RECORD
sessions also present; and it is NO IN RECORD exactly when some session of
the day is NO IN RECORD and none is OUT MISSING. -/
theorem c6_day_status (processed : List ScanRecord) (filtered : List Session)
    (date : String) :
    ((∀ s ∈ filtered.filter (fun s => s.date == date), s.status = "NORMAL") →
       (buildDay processed filtered date).status = "NORMAL") ∧
    ((∃ s ∈ filtered.filter (fun s => s.date == date), s.status = "OUT MISSING") →
       (buildDay processed filtered date).status = "OUT MISSING") ∧
    ((buildDay processed filtered date).status = "NO IN RECORD" ↔
       ((∃ s ∈ filtered.filter (fun s => s.date == date), s.status = "NO IN RECORD") ∧
        (∀ s ∈ filtered.filter (fun s => s.date == date), s.status ≠ "OUT MISSING"))) := by
  have hshape : (buildDay processed filtered date).status =
      ((filtered.filter (fun s => s.date == date)).foldl dayStep initDayAcc).status := rfl
  refine ⟨?_, ?_, ?_⟩
  · intro h
    rw [hshape]
    exact foldl_dayStep_no_flags _ _
      (fun s hs => by rw [h s hs]; exact ⟨by decide, by decide⟩)
  · intro h
    rw [hshape]
    exact foldl_dayStep_out_missing _ _ h
  · constructor
    · intro h
      by_cases hom : ∃ s ∈ filtered.filter (fun s => s.date == date),
          s.status = "OUT MISSING"
      · rw [hshape, foldl_dayStep_out_missing _ _ hom] at h
        exact absurd h (by decide)
      · push_neg at hom
        by_cases hnir : ∃ s ∈ filtered.filter (fun s => s.date == date),
            s.status = "NO IN RECORD"
        · exact ⟨hnir, hom⟩
        · push_neg at hnir
          rw [hshape, foldl_dayStep_no_flags _ _ (fun s hs => ⟨hom s hs, hnir s hs⟩)] at h
          exact absurd h (by decide)
    · intro ⟨hnir, hom⟩
      rw [hshape]
      exact foldl_dayStep_no_in _ _ rfl hom hnir

/-- C6 witness: in the three-line log's March 2024 report, the day
2024-03-02 (whose only session is OUT MISSING) is classified OUT MISSING. -/
theorem c6_witness :
    (buildDay (pairAll (sortRecords (parseRecords c1Log "101"))).processed
      ((pairAll (sortRecords (parseRecords c1Log "101"))).sessions.filter
        (sessionInPeriod 3 2024)) "2024-03-02").status = "OUT MISSING" :=
  (c6_day_status (pairAll (sortRecords (parseRecords c1Log "101"))).processed
      ((pairAll (sortRecords (parseRecords c1Log "101"))).sessions.filter
        (sessionInPeriod 3 2024)) "2024-03-02").2.1 (by decide)

theorem foldl_dayStep_status_cases (l : List Session) (a : DayAcc)
    (ha : a.status = "NORMAL" ∨ a.status = "OUT MISSING" ∨ a.status = "NO IN RECORD") :
    (l.foldl dayStep a).status = "NORMAL" ∨ (l.foldl dayStep a).status = "OUT MISSING" ∨
      (l.foldl dayStep a).status = "NO IN RECORD" := by
  induction l generalizing a with
  | nil => exact ha
  | cons s rest ih =>
      rw [List.foldl_cons]
      apply ih
      rw [dayStep_status]
      split_ifs with h1 h2
      · right; left; rfl
      · right; right; rfl
      · exact ha

theorem buildDay_status_cases (p : List ScanRecord) (f : List Session) (date : String) :
    (buildDay p f date).status = "NORMAL" ∨ (buildDay p f date).status = "OUT MISSING" ∨
      (buildDay p f date).status = "NO IN RECORD" :=
  foldl_dayStep_status_cases (f.filter (fun s => s.date == date)) initDayAcc (Or.inl rfl)

theorem buildDays_normal_count (p : List ScanRecord) (f : List Session)
    (dates : List String) :
    (buildDays p f dates).2.1 =
      (buildDays p f dates).1.countP (fun d => d.status == "NORMAL") := by
  induction dates with
  | nil => rfl
  | cons date rest ih =>
      unfold buildDays
      simp only [List.countP_cons]
      cases h : ((buildDay p f date).status == "NORMAL") <;> simp [h, ih] <;> omega

theorem buildDays_out_missing_count (p : List ScanRecord) (f : List Session)
    (dates : List String) :
    (buildDays p f dates).2.2 =
      (buildDays p f dates).1.countP (fun d => d.status == "OUT MISSING") := by
  induction dates with
  | nil => rfl
  | cons date rest ih =>
      unfold buildDays
      simp only [List.countP_cons]
      cases h : ((buildDay p f date).status == "OUT MISSING") <;> simp [h, ih] <;> omega

theorem buildDays_partition (p : List ScanRecord) (f : List Session)
    (dates : List String) :
    (buildDays p f dates).2.1 + (buildDays p f dates).2.2 +
        (buildDays p f dates).1.countP (fun d => d.status == "NO IN RECORD") =
      (buildDays p f dates).1.length := by
  induction dates with
  | nil => rfl
  | cons date rest ih =>
      have key : buildDays p f (date :: rest) =
          ((buildDay p f date) :: (buildDays p f rest).1,
           (if (buildDay p f date).status == "NORMAL" then 1 else 0) +
             (buildDays p f rest).2.1,
           (if (buildDay p f date).status == "OUT MISSING" then 1 else 0) +
             (buildDays p f rest).2.2) := rfl
      rw [key]
      simp only [List.countP_cons, List.length_cons]
      rcases buildDay_status_cases p f date with h | h | h <;>
        · rw [h]
          simp at ih ⊢
          omega

/-- C9: in every report, `totalNormalDays` counts exactly the daily
records whose status is NORMAL and `totalOutMissingDays` exactly those
whose status is OUT MISSING; a NO IN RECORD day increments neither, so the
two counters sum to `totalDaysWithRecords` minus the number of
NO IN RECORD days. -/
theorem analyzeAttendance_eq_buildDays (ft e : String) (m y : Int) :
    (analyzeAttendance ft e m y).dailyRecords =
      (buildDays (pairAll (sortRecords (parseRecords ft e))).processed
        ((pairAll (sortRecords (parseRecords ft e))).sessions.filter (sessionInPeriod m y))
        (List.insertionSort (fun a b => strLeB a b = true)
          (dedupFirst (((pairAll (sortRecords (parseRecords ft e))).sessions.filter
            (sessionInPeriod m y)).map (·.date))))).1 ∧
    (analyzeAttendance ft e m y).summary.totalNormalDays =
      (buildDays (pairAll (sortRecords (parseRecords ft e))).processed
        ((pairAll (sortRecords (parseRecords ft e))).sessions.filter (sessionInPeriod m y))
        (List.insertionSort (fun a b => strLeB a b = true)
          (dedupFirst (((pairAll (sortRecords (parseRecords ft e))).sessions.filter
            (sessionInPeriod m y)).map (·.date))))).2.1 ∧
    (analyzeAttendance ft e m y).summary.totalOutMissingDays =
      (buildDays (pairAll (sortRecords (parseRecords ft e))).processed
        ((pairAll (sortRecords (parseRecords ft e))).sessions.filter (sessionInPeriod m y))
        (List.insertionSort (fun a b => strLeB a b = true)
          (dedupFirst (((pairAll (sortRecords (parseRecords ft e))).sessions.filter
            (sessionInPeriod m y)).map (·.date))))).2.2 ∧
    (analyzeAttendance ft e m y).summary.totalDaysWithRecords =
      (buildDays (pairAll (sortRecords (parseRecords ft e))).processed
        ((pairAll (sortRecords (parseRecords ft e))).sessions.filter (sessionInPeriod m y))
        (List.insertionSort (fun a b => strLeB a b = true)
          (dedupFirst (((pairAll (sortRecords (parseRecords ft e))).sessions.filter
            (sessionInPeriod m y)).map (·.date))))).1.length :=
  ⟨rfl, rfl, rfl, rfl⟩

theorem c9_summary_counts (fileText employeeId : String) (month year : Int) :
    (analyzeAttendance fileText employeeId month year).summary.totalNormalDays =
      (analyzeAttendance fileText employeeId month year).dailyRecords.countP
        (fun d => d.status == "NORMAL") ∧
    (analyzeAttendance fileText employeeId month year).summary.totalOutMissingDays =
      (analyzeAttendance fileText employeeId month year).dailyRecords.countP
        (fun d => d.status == "OUT MISSING") ∧
    (analyzeAttendance fileText employeeId month year).summary.totalNormalDays +
        (analyzeAttendance fileText employeeId month year).summary.totalOutMissingDays =
      (analyzeAttendance fileText employeeId month year).summary.totalDaysWithRecords -
        (analyzeAttendance fileText employeeId month year).dailyRecords.countP
          (fun d => d.status == "NO IN RECORD") ∧
    (analyzeAttendance fileText employeeId month year).summary.totalNormalDays +
        (analyzeAttendance fileText employeeId month year).summary.totalOutMissingDays +
        (analyzeAttendance fileText employeeId month year).dailyRecords.countP
          (fun d => d.status == "NO IN RECORD") =
      (analyzeAttendance fileText employeeId month year).summary.totalDaysWithRecords := by
  have h1 := buildDays_normal_count
    (pairAll (sortRecords (parseRecords fileText employeeId))).processed
    ((pairAll (sortRecords (parseRecords fileText employeeId))).sessions.filter
      (sessionInPeriod month year))
    (List.insertionSort (fun a b => strLeB a b = true)
      (dedupFirst (((pairAll (sortRecords (parseRecords fileText employeeId))).sessions.filter
        (sessionInPeriod month year)).map (·.date))))
  have h2 := buildDays_out_missing_count
    (pairAll (sortRecords (parseRecords fileText employeeId))).processed
    ((pairAll (sortRecords (parseRecords fileText employeeId))).sessions.filter
      (sessionInPeriod month year))
    (List.insertionSort (fun a b => strLeB a b = true)
      (dedupFirst (((pairAll (sortRecords (parseRecords fileText employeeId))).sessions.filter
        (sessionInPeriod month year)).map (·.date))))
  have h3 := buildDays_partition
    (pairAll (sortRecords (parseRecords fileText employeeId))).processed
    ((pairAll (sortRecords (parseRecords fileText employeeId))).sessions.filter
      (sessionInPeriod month year))
    (List.insertionSort (fun a b => strLeB a b = true)
      (dedupFirst (((pairAll (sortRecords (parseRecords fileText employeeId))).sessions.filter
        (sessionInPeriod month year)).map (·.date))))
  obtain ⟨e1, e2, e3, e4⟩ := analyzeAttendance_eq_buildDays fileText employeeId month year
  rw [e1, e2, e3, e4]
  refine ⟨h1, h2, ?_, ?_⟩ <;> omega

theorem mem_addUnique_self (acc : List String) (x : String) : x ∈ addUnique acc x := by
  unfold addUnique
  split
  · assumption
  · simp

theorem mem_addUnique_of_mem (acc : List String) (x y : String) (h : x ∈ acc) :
    x ∈ addUnique acc y := by
  unfold addUnique
  split
  · exact h
  · simp [h]

/-- The id-collecting step of `getEmployeeIds`. -/
def collectStep (acc : List String) (line : String) : List String :=
  match jsParts line with
  | p :: _ => if p != "" then addUnique acc p else acc
  | [] => acc

theorem getEmployeeIds_eq (fileText : String) :
    getEmployeeIds fileText =
      List.insertionSort (fun a b => idCmp a b ≤ 0)
        ((jsLines fileText).foldl collectStep []) := rfl

theorem mem_collectStep_of_mem (acc : List String) (line x : String) (h : x ∈ acc) :
    x ∈ collectStep acc line := by
  unfold collectStep
  split
  · split
    · exact mem_addUnique_of_mem _ _ _ h
    · exact h
  · exact h

theorem mem_foldl_collectStep_of_mem (lines : List String) (acc : List String)
    (x : String) (h : x ∈ acc) : x ∈ lines.foldl collectStep acc := by
  induction lines generalizing acc with
  | nil => exact h
  | cons l rest ih => exact ih _ (mem_collectStep_of_mem acc l x h)

theorem mem_foldl_collectStep (lines : List String) (acc : List String)
    (empId : String) (hne : empId ≠ "")
    (h : ∃ line ∈ lines, (jsParts line).getD 0 "" = empId) :
    empId ∈ lines.foldl collectStep acc := by
  induction lines generalizing acc with
  | nil => simp at h
  | cons l rest ih =>
      rcases h with ⟨line, hl, hhead⟩
      rw [List.foldl_cons]
      rcases List.mem_cons.mp hl with rfl | hl'
      · apply mem_foldl_collectStep_of_mem
        unfold collectStep
        cases hp : jsParts line with
        | nil => rw [hp] at hhead; exact absurd hhead.symm hne
        | cons p ps =>
            rw [hp] at hhead
            simp only [List.getD_cons_zero] at hhead
            subst hhead
            simp only [show (p != "") = true from by simpa [bne_iff_ne] using hne, if_true]
            exact mem_addUnique_self acc p
      · exact ih _ ⟨line, hl', hhead⟩

theorem mkRecord?_eq_none_of_short_or_other (empId line : String)
    (h : (jsParts line).getD 0 "" = empId → (jsParts line).length < 5) :
    mkRecord? empId line = none := by
  unfold mkRecord?
  by_cases hlen : (jsParts line).length < 5
  · rw [if_pos hlen]
  · rw [if_neg hlen]
    have hne : (jsParts line).getD 0 "" ≠ empId := fun hc => hlen (h hc)
    rw [if_neg (by simpa [beq_iff_eq] using hne)]

/-- The empty report returned when no scan record survives parsing. -/
theorem analyzeAttendance_empty (ft empId : String) (month year : Int)
    (hrec : parseRecords ft empId = []) :
    analyzeAttendance ft empId month year =
      { employeeId := empId, month := month, year := year,
        summary := { totalDaysWithRecords := 0, totalOutMissingDays := 0,
                     totalNormalDays := 0 },
        dailyRecords := [] } := by
  unfold analyzeAttendance
  rw [hrec]
  rfl

/-- C8 counterexample: the single matching line
`101 2024-03-01 99:99:99 1 0` has 5 fields but an invalid time, yet it is
NOT dropped: it produces a session, a daily record with `scanCount = 1`
and the 8-hour fallback — the claim predicts an empty report with no
session and no scan counted. -/
theorem c8_counterexample :
    (analyzeAttendance c8Log "101" 3 2024).dailyRecords.length = 1 ∧
    (analyzeAttendance c8Log "101" 3 2024).dailyRecords.map (fun d => d.scanCount) = [1] ∧
    (pairAll (sortRecords (parseRecords c8Log "101"))).sessions ≠ [] := by
  refine ⟨by decide, by decide, by decide⟩

/-- C8 amended: a line with at least 5 fields whose first token matches the
requested employee is always turned into a record, regardless of whether
its date and time parse into a valid instant — the parser never consults
the timestamp, so invalid-time records enter pairing, `scanCount` and
`logs` (the invalid timestamp only yields a `none`/`NaN` `dateTime`). -/
theorem c8_invalid_time_retained (empId line : String)
    (h5 : ¬ (jsParts line).length < 5)
    (hid : (jsParts line).getD 0 "" = empId) :
    mkRecord? empId line = some
      { id := (jsParts line).getD 0 "",
        date := (jsParts line).getD 1 "",
        time := (jsParts line).getD 2 "",
        dateTime := jsDateParse? ((jsParts line).getD 1 "") ((jsParts line).getD 2 ""),
        inOutStatus := jsParseInt? ((jsParts line).getD 4 "") } := by
  unfold mkRecord?
  rw [if_neg h5, if_pos (by simpa [beq_iff_eq] using hid)]

/-- C8 witness: the invalid-time line is parsed into a record whose
`dateTime` is the Invalid Date (`none`); downstream it is treated as an IN
with a missing OUT, so the day reports status OUT MISSING, 8.0 fallback
hours, `inTime` `"99:99"` and the record visible in the logs. -/
theorem c8_witness :
    mkRecord? "101" c8Log = some
      { id := (jsParts c8Log).getD 0 "",
        date := (jsParts c8Log).getD 1 "",
        time := (jsParts c8Log).getD 2 "",
        dateTime := jsDateParse? ((jsParts c8Log).getD 1 "") ((jsParts c8Log).getD 2 ""),
        inOutStatus := jsParseInt? ((jsParts c8Log).getD 4 "") } ∧
    jsDateParse? "2024-03-01" "99:99:99" = none ∧
    (analyzeAttendance c8Log "101" 3 2024).dailyRecords.map
        (fun d => (d.date, d.status, d.totalHours, d.inTime)) =
      [("2024-03-01", "OUT MISSING", some 800, "99:99")] ∧
    (analyzeAttendance c8Log "101" 3 2024).dailyRecords.map
        (fun d => d.logs.map (fun l => (l.type, l.displayTime))) =
      [[("IN", "Invalid Date")]] :=
  ⟨c8_invalid_time_retained "101" c8Log (by decide) (by decide),
   by decide, by decide, by decide⟩

/-- C10: an employee id that occurs (as a line's first token) only on
lines with fewer than 5 fields is still returned by `getEmployeeIds`,
even though `analyzeAttendance` for that id produces the empty report
(no daily records, all summary counters zero) for any month and year. -/
theorem c10_short_line_ids (ft empId : String) (month year : Int)
    (hne : empId ≠ "")
    (h1 : ∃ line ∈ jsLines ft, (jsParts line).getD 0 "" = empId)
    (h2 : ∀ line ∈ jsLines ft, (jsParts line).getD 0 "" = empId →
      (jsParts line).length < 5) :
    empId ∈ getEmployeeIds ft ∧
    analyzeAttendance ft empId month year =
      { employeeId := empId, month := month, year := year,
        summary := { totalDaysWithRecords := 0, totalOutMissingDays := 0,
                     totalNormalDays := 0 },
        dailyRecords := [] } := by
  constructor
  · rw [getEmployeeIds_eq]
    rw [List.mem_insertionSort]
    exact mem_foldl_collectStep _ _ _ hne h1
  · apply analyzeAttendance_empty
    unfold parseRecords
    rw [List.filterMap_eq_nil]
    exact fun line hl => mkRecord?_eq_none_of_short_or_other empId line (h2 line hl)

theorem addUnique_nodup (acc : List String) (x : String) (h : acc.Nodup) :
    (addUnique acc x).Nodup := by
  unfold addUnique
  split
  · exact h
  · next hx => simp [List.nodup_append, h, hx]

theorem collectStep_nodup (acc : List String) (line : String) (h : acc.Nodup) :
    (collectStep acc line).Nodup := by
  unfold collectStep
  split
  · split
    · exact addUnique_nodup _ _ h
    · exact h
  · exact h

theorem foldl_collectStep_nodup (lines : List String) (acc : List String)
    (h : acc.Nodup) : (lines.foldl collectStep acc).Nodup := by
  induction lines generalizing acc with
  | nil => exact h
  | cons l rest ih => exact ih _ (collectStep_nodup acc l h)

/-- On two ids that both have a `parseInt` value, the comparator orders by
that value. -/
theorem idCmp_le_iff (a b : String) (va vb : Int)
    (ha : jsParseInt? a = some va) (hb : jsParseInt? b = some vb) :
    idCmp a b ≤ 0 ↔ va ≤ vb := by
  unfold idCmp
  rw [ha, hb]
  show va - vb ≤ 0 ↔ va ≤ vb
  omega

theorem orderedInsert_pairwise_of_numeric (x : String) (l : List String)
    (hx : (jsParseInt? x).isSome = true)
    (hl : ∀ y ∈ l, (jsParseInt? y).isSome = true)
    (hs : l.Pairwise (fun a b => (jsParseInt? a).getD 0 ≤ (jsParseInt? b).getD 0)) :
    (List.orderedInsert (fun a b => idCmp a b ≤ 0) x l).Pairwise
      (fun a b => (jsParseInt? a).getD 0 ≤ (jsParseInt? b).getD 0) := by
  induction l with
  | nil => simp
  | cons b l ih =>
      obtain ⟨vx, hvx⟩ := Option.isSome_iff_exists.mp hx
      obtain ⟨vb, hvb⟩ := Option.isSome_iff_exists.mp (hl b (List.mem_cons_self b l))
      rw [List.orderedInsert]
      rcases List.pairwise_cons.mp hs with ⟨hbl, hsl⟩
      split
      · next hr =>
          have hxb : (jsParseInt? x).getD 0 ≤ (jsParseInt? b).getD 0 := by
            rw [hvx, hvb]
            exact ((idCmp_le_iff x b vx vb hvx hvb).mp hr :)
          refine List.pairwise_cons.mpr ⟨?_, hs⟩
          intro y hy
          rcases List.mem_cons.mp hy with rfl | hy'
          · exact hxb
          · exact le_trans hxb (hbl y hy')
      · next hr =>
          have hbx : (jsParseInt? b).getD 0 ≤ (jsParseInt? x).getD 0 := by
            rw [hvx, hvb]
            have : ¬ vx ≤ vb := fun hle =>
              hr ((idCmp_le_iff x b vx vb hvx hvb).mpr hle)
            simp only [Option.getD_some]
            omega
          refine List.pairwise_cons.mpr ⟨?_, ?_⟩
          · intro y hy
            rcases (List.mem_orderedInsert _).mp hy with rfl | hy'
            · exact hbx
            · exact hbl y hy'
          · exact ih (fun y hy => hl y (List.mem_cons_of_mem b hy)) hsl

theorem insertionSort_pairwise_of_numeric (l : List String)
    (hl : ∀ y ∈ l, (jsParseInt? y).isSome = true) :
    (List.insertionSort (fun a b => idCmp a b ≤ 0) l).Pairwise
      (fun a b => (jsParseInt? a).getD 0 ≤ (jsParseInt? b).getD 0) := by
  induction l with
  | nil => simp
  | cons x l ih =>
      rw [List.insertionSort]
      apply orderedInsert_pairwise_of_numeric
      · exact hl x (List.mem_cons_self x l)
      · intro y hy
        exact hl y (List.mem_cons_of_mem x ((List.mem_insertionSort _).mp hy))
      · exact ih (fun y hy => hl y (List.mem_cons_of_mem x hy))

/-- C7 counterexample: in the log with first tokens `12abc` and `111`,
`getEmployeeIds` returns the spec-non-numeric id `12abc` before the
numeric id `111` (because `parseInt("12abc") = 12 < 111`), so the result
is not "numeric identifiers first, ordered numerically, followed by the
rest lexicographically" — that order would be `["111", "12abc"]`. -/
theorem c7_counterexample :
    getEmployeeIds c7Log = ["12abc", "111"] ∧
    specNumericId "111" = true ∧ specNumericId "12abc" = false ∧
    getEmployeeIds c7Log ≠ ["111", "12abc"] := by
  refine ⟨by decide, by decide, by decide, by decide⟩

/-- C7 amended: `getEmployeeIds` returns a duplicate-free list sorted by
the source's comparator, which compares two ids numerically whenever both
have a `parseInt` value (an id like `12abc` counts as numeric with value
12, and trailing garbage is ignored) and falls back to string comparison
otherwise; in particular, when every returned id has a `parseInt` value
the list is sorted by that value. -/
theorem c7_amended_sorted (ft : String) :
    (getEmployeeIds ft).Nodup ∧
    ((∀ x ∈ getEmployeeIds ft, (jsParseInt? x).isSome = true) →
      (getEmployeeIds ft).Pairwise
        (fun a b => (jsParseInt? a).getD 0 ≤ (jsParseInt? b).getD 0)) := by
  constructor
  · rw [getEmployeeIds_eq]
    exact (List.perm_insertionSort _ _).nodup_iff.mpr
      (foldl_collectStep_nodup _ _ List.nodup_nil)
  · intro h
    rw [getEmployeeIds_eq]
    apply insertionSort_pairwise_of_numeric
    intro y hy
    apply h
    rw [getEmployeeIds_eq, List.mem_insertionSort]
    exact hy

/-- C7 witness: on a log whose ids are all numeric, the returned list is
duplicate-free and numerically sorted. -/
theorem c7_witness :
    (getEmployeeIds c7NumLog).Nodup ∧
    (getEmployeeIds c7NumLog).Pairwise
      (fun a b => (jsParseInt? a).getD 0 ≤ (jsParseInt? b).getD 0) :=
  ⟨(c7_amended_sorted c7NumLog).1, (c7_amended_sorted c7NumLog).2 (by decide)⟩

/-- C10 witness: in the log `"7 x\n8 a b c d e"` the id `7` occurs only on
a 2-field line; it is listed by `getEmployeeIds` while its March 2024
report is empty. -/
theorem c10_witness :
    "7" ∈ getEmployeeIds c10Log ∧
    analyzeAttendance c10Log "7" 3 2024 =
      { employeeId := "7", month := 3, year := 2024,
        summary := { totalDaysWithRecords := 0, totalOutMissingDays := 0,
                     totalNormalDays := 0 },
        dailyRecords := [] } :=
  c10_short_line_ids c10Log "7" 3 2024 (by decide) (by decide) (by decide)

end Attendance
